import Mathlib

/-!
# Verification of the deephyper benchmark/evaluator adapters

Shallow embedding of the resource-selection, registration, output-parsing,
checkpoint-resume and lazy-import logic of the repository
(`deephyper/evaluators/_balsam.py`, `benchmarks/b3/babi_rnn.py`,
`deephyper/problem/__init__.py`), together with theorems settling the
spec's claims about them.

Python dictionaries are embedded as association lists with unique keys
(`List (String × PValue)`), mutation as explicit state passing, logging
and printing as returned lists of strings, and exceptions as `Except`.
-/

/-- A Python value as it appears in a configuration dictionary: a mix of
categorical (string), integer, rational (stand-in for float) and boolean
parameters. -/
inductive PValue
  | int (n : Int)
  | str (s : String)
  | real (q : Rat)
  | bool (b : Bool)
deriving DecidableEq, Repr

/-- A configuration: a mapping from parameter name to value, embedded as an
association list (Python `dict` with unique keys, insertion order kept). -/
abbrev Config := List (String × PValue)

/-- Python `str()` of a configuration value, as used when formatting. -/
def PValue.toStr : PValue → String
  | .int n => toString n
  | .str s => s
  | .real q => toString q
  | .bool b => cond b "True" "False"

/-! ## `BalsamEvaluator._eval_exec`: resource selection (claim C1) -/

/-- The literal `resources` dictionary built by `_eval_exec`:
`num_nodes=1, ranks_per_node=1, threads_per_rank=64,
node_packing_count=self.WORKERS_PER_NODE`.  `WORKERS_PER_NODE` is an
attribute of the `Evaluator` base class outside this repository, so it is a
parameter `wpn` here. -/
def defaultResources (wpn : Int) : List (String × PValue) :=
  [("num_nodes", .int 1), ("ranks_per_node", .int 1),
   ("threads_per_rank", .int 64), ("node_packing_count", .int wpn)]

/-- The override loop of `_eval_exec`:
`for key in resources: if key in x: resources[key] = x[key]`.
Rebinding a present key keeps dict order, hence `map`. -/
def overrideResources (x : Config) (res : List (String × PValue)) :
    List (String × PValue) :=
  res.map (fun kv =>
    match List.lookup kv.1 x with
    | some v => (kv.1, v)
    | none => kv)

/-- The resource request `_eval_exec` derives from a configuration `x`. -/
def evalExecResources (wpn : Int) (x : Config) : List (String × PValue) :=
  overrideResources x (defaultResources wpn)

/-! ## `BalsamEvaluator._on_fail`: failure sentinel (claim C2) -/

/-- The correlating handle the evaluator holds for one remote task. -/
structure Job where
  name : String
  cute_id : String
  config : Config
deriving Repr

/-- Modelled from the spec: `Evaluator.FAIL_RETURN_VALUE`, the fixed
sentinel "maximally bad" objective declared on the `Evaluator` base class,
which is not under `src/`.  The log line in `_on_fail` calls it
`float_max`; the concrete value is irrelevant to the claims, only that it
is one fixed constant. -/
def FAIL_RETURN_VALUE : Rat := (17976931348623157 : Rat) * 10 ^ 292

/-- `BalsamEvaluator._on_fail`: logs the failure and returns
`Evaluator.FAIL_RETURN_VALUE`.  The pair is (log lines, outcome); the
outcome is `Except` so that "does not raise" is `Except.ok`. -/
def onFail (job : Job) : List String × Except String Rat :=
  (["Task " ++ job.cute_id ++ " failed; setting objective as float_max"],
   Except.ok FAIL_RETURN_VALUE)

/-! ## `babi_rnn.run`: checkpoint resume decision (claim C3) -/

/-- The state `run` is in after the checkpoint-loading block. -/
structure ResumeState where
  initial_epoch : Int
  resume : Bool
deriving DecidableEq, Repr

/-- The checkpoint block of `run`: if both the model file and the metadata
file exist, `initial_epoch` is the saved dictionary's `epochs` entry and
`resume` is set exactly when `initial_epoch < param_dict['epochs']`;
otherwise `initial_epoch = 0` and `resume = False`. -/
def runResumeCheck (filesExist : Bool) (savedEpochs requestedEpochs : Int) :
    ResumeState :=
  if filesExist then
    { initial_epoch := savedEpochs,
      resume := decide (savedEpochs < requestedEpochs) }
  else
    { initial_epoch := 0, resume := false }

/-- Lexicographic (code-point) strict order on character lists: the order
Python's `sorted` uses on strings. -/
def lexLt : List Char → List Char → Bool
  | [], [] => false
  | [], _ :: _ => true
  | _ :: _, [] => false
  | a :: as, b :: bs => if a < b then true else if b < a then false else lexLt as bs

/-- Insert a string into an already sorted list of strings. -/
def insertSorted (s : String) : List String → List String
  | [] => [s]
  | t :: rest =>
      if lexLt t.toList s.toList then t :: insertSorted s rest
      else s :: t :: rest

/-- Python `sorted` on a list of strings. -/
def sortStrings (l : List String) : List String := l.foldr insertSorted []

/-- `babi_rnn.extension_from_parameters`: concatenates
`.key=value` for every key of the configuration in sorted order, skipping
the key `epochs`.  The extension is what gets hashed to name the
checkpoint and metadata files. -/
def extension_from_parameters (params : Config) : String :=
  (sortStrings (params.map Prod.fst)).foldl
    (fun ext key =>
      if key ≠ "epochs" then
        match List.lookup key params with
        | some v => ext ++ "." ++ key ++ "=" ++ v.toStr
        | none => ext
      else ext) ""

/-! ## `BalsamEvaluator._init_app`: idempotent registration (claims C4, C6, C7) -/

/-- The ApplicationDefinition registry: persisted `name → executable`
records, embedded as an association list. -/
abbrev Registry := List (String × String)

/-- Number of records registered under the name `k`. -/
def countKey (reg : Registry) (k : String) : Nat :=
  (List.filter (fun kv => kv.1 == k) reg).length

/-- `_init_app` under a successful database: `AppDef.objects.get(name=appName)`,
and on `ObjectDoesNotExist` create `AppDef(name=appName, executable=exe)` and
save it.  Returns the registry afterwards and whether a creation happened. -/
def initApp (reg : Registry) (appName exe : String) : Registry × Bool :=
  match List.lookup appName reg with
  | some _ => (reg, false)
  | none => ((appName, exe) :: reg, true)

/-- The in-process state `BalsamEvaluator.__init__` builds. -/
structure BalsamEvaluatorS where
  appName : String
  num_workers : Int
deriving DecidableEq, Repr

/-- `BalsamEvaluator.__init__` (database healthy): derives
`appName = moduleName + "." + funcName`, runs `_init_app`, and sizes the
worker pool as `LAUNCHER_NODES * WORKERS_PER_NODE`.  Constructing the
evaluator is the only way to obtain a `BalsamEvaluatorS`, and it returns the
registry already containing the registration, which is how "no task is
submitted before this registration exists" is rendered. -/
def mkBalsamEvaluator (reg : Registry) (moduleName funcName exe : String)
    (launcherNodes wpn : Int) : BalsamEvaluatorS × Registry :=
  let appName := moduleName ++ "." ++ funcName
  let (regAfter, _) := initApp reg appName exe
  ({ appName := appName, num_workers := launcherNodes * wpn }, regAfter)

/-- Outcome of the single registry lookup `AppDef.objects.get` performed by
`_init_app`: the record is found, the ORM raises `ObjectDoesNotExist`, or
the lookup fails some other way (database error, multiple objects, ...). -/
inductive GetOutcome
  | found (exe : String)
  | objectDoesNotExist
  | dbFailure (msg : String)
deriving DecidableEq, Repr

/-- `_init_app` with the lookup outcome made explicit: only
`ObjectDoesNotExist` is caught (and answered by creating the record);
every other lookup failure propagates unchanged. -/
def initAppExc (get : GetOutcome) (reg : Registry) (appName exe : String) :
    Except String (Registry × Bool) :=
  match get with
  | .found _ => Except.ok (reg, false)
  | .objectDoesNotExist => Except.ok ((appName, exe) :: reg, true)
  | .dbFailure msg => Except.error msg

/-- `__init__` with the lookup outcome made explicit: `_init_app` is called
inside the constructor, so a propagating lookup failure makes construction
itself fail. -/
def mkBalsamEvaluatorExc (get : GetOutcome) (reg : Registry)
    (moduleName funcName exe : String) (launcherNodes wpn : Int) :
    Except String (BalsamEvaluatorS × Registry) :=
  let appName := moduleName ++ "." ++ funcName
  match initAppExc get reg appName exe with
  | .error msg => Except.error msg
  | .ok (regAfter, _) =>
      Except.ok ({ appName := appName, num_workers := launcherNodes * wpn },
                 regAfter)

/-! ### Event traces of `__init__` (claim C7)

The claim is about *how* the registry is accessed, so the constructor is
also embedded as a trace of the externally visible events it performs, in
program order.  `transaction.atomic` entry/exit would show up as
`txnBegin`/`txnEnd` events; the source never enters the guard, it only
stores `transaction.atomic` in `self.transaction_context` after
`_init_app()` has returned, which is the `storeTxnContext` event. -/

/-- Externally visible events of `BalsamEvaluator.__init__`. -/
inductive Ev
  | superInit
  | regGet (name : String)
  | regCreate (name : String) (exe : String)
  | storeTxnContext
  | txnBegin
  | txnEnd
deriving DecidableEq, Repr

/-- The events `_init_app` performs: the lookup, then, only when the name
was absent, the create-and-save. -/
def initAppEvents (reg : Registry) (appName exe : String) :
    List Ev × Registry :=
  match List.lookup appName reg with
  | some _ => ([Ev.regGet appName], reg)
  | none => ([Ev.regGet appName, Ev.regCreate appName exe],
             (appName, exe) :: reg)

/-- The event trace of `BalsamEvaluator.__init__`, in program order:
`super().__init__`, the `_init_app` events, then the assignment
`self.transaction_context = transaction.atomic`. -/
def balsamInitEvents (reg : Registry) (appName exe : String) :
    List Ev × Registry :=
  let (es, regAfter) := initAppEvents reg appName exe
  (Ev.superInit :: es ++ [Ev.storeTxnContext], regAfter)

/-- The unguarded check-then-act race: two evaluator constructions for the
same entry-point interleave on an initially empty registry as
`get₁, get₂, create₁, create₂`.  Each `get` observes whether the name is
absent at that moment; each `create` saves only if its own `get` raised
`ObjectDoesNotExist`. -/
def raceFinalRegistry : Registry :=
  let reg0 : Registry := []
  let aSawAbsent := (List.lookup "model.run" reg0).isNone
  let bSawAbsent := (List.lookup "model.run" reg0).isNone
  let reg1 := if aSawAbsent then ("model.run", "python") :: reg0 else reg0
  let reg2 := if bSawAbsent then ("model.run", "python") :: reg1 else reg1
  reg2

/-! ## `babi_rnn.run`: default filling and frame effect (claim C8) -/

/-- The defaults added by `babi_rnn.augment_parser`:
`rnn_type='LSTM'`, `embed_hidden_size=50`, `sent_hidden_size=100`,
`query_hidden_size=100`. -/
def augmentDefaults : Config :=
  [("rnn_type", .str "LSTM"), ("embed_hidden_size", .int 50),
   ("sent_hidden_size", .int 100), ("query_hidden_size", .int 100)]

/-- Modelled from the spec: the defaults contributed by
`keras_cmdline.create_parser` (not under `src/`) — "standard argument
flags for ... batch size, epoch count, dropout, optimizer".  The spec does
not give the default values, so stand-in values are used; the claims about
`run` only depend on the key set. -/
def kerasCmdlineDefaults : Config :=
  [("batch_size", .int 32), ("epochs", .int 10),
   ("dropout", .real 0), ("optimizer", .str "adam")]

/-- `babi_rnn.defaults()`: the full default dictionary
`vars(parser.parse_args(''))` of the shared parser plus `augment_parser`. -/
def run_defaults : Config := kerasCmdlineDefaults ++ augmentDefaults

/-- The first loop of `babi_rnn.run`:
`for key in default_params: if key not in param_dict: param_dict[key] = default_params[key]`.
This mutates the caller's dictionary in place; a Python dict appends a new
key at the end of its iteration order. -/
def fillDefaults (defaults params : Config) : Config :=
  defaults.foldl (fun p kv =>
    match List.lookup kv.1 p with
    | some _ => p
    | none => p ++ [kv]) params

/-- The configuration dictionary as `run` leaves it: `run` only ever
writes `param_dict` in the default-filling loop. -/
def runParamDict (params : Config) : Config := fillDefaults run_defaults params

/-- The task record `_eval_exec` submits through `dag.add_job`:
name `task<counter>`, the serialized argument string, and the resource
request.  `self.encode(x)` lives on the base `Evaluator` outside `src/`;
the embedding keeps the encoded configuration as the configuration itself,
which is enough for the frame claim (the call only reads `x`). -/
structure TaskSpec where
  name : String
  argsConfig : Config
  resources : List (String × PValue)
deriving Repr

/-- `_eval_exec` as a state function on the submitted configuration: it
returns the task it enqueues together with the configuration as it is
after the call.  The body only reads `x` (`self.encode(x)`, `key in x`,
`x[key]`), so the configuration comes back untouched. -/
def evalExecState (wpn : Int) (counter : Nat) (x : Config) :
    TaskSpec × Config :=
  ({ name := "task" ++ toString counter,
     argsConfig := x,
     resources := evalExecResources wpn x }, x)

/-! ## `babi_rnn.run`: dataset staging failure (claim C9) -/

/-- The remediation hint `run` prints when `stage_in` raises. -/
def remediationHint : String :=
  "Error downloading dataset, please download it manually:\n" ++
  "$ wget http://www.thespermwhale.com/jaseweston/babi/tasks_1-20_v1-2.tar.gz\n" ++
  "$ mv tasks_1-20_v1-2.tar.gz ~/.keras/datasets/babi-tasks-v1-2.tar.gz"

/-- The staging block of `run`: `try: paths = stage_in(...)` with a bare
`except` that prints the hint and re-raises.  The outcome of `stage_in`
(the mapping file name → local path, or the exception) is the argument;
the result is (printed lines, outcome of the block). -/
def runStaging (stageResult : Except String (List (String × String))) :
    List String × Except String (List (String × String)) :=
  match stageResult with
  | .ok paths => ([], Except.ok paths)
  | .error e => ([remediationHint], Except.error e)

/-! ## Output artifact contract (claim C5) -/

/-- An exact decimal numeral as printed by Python for a float such as
`-0.73`: sign, integer part, and the digit string after the point.
Floats have no role beyond their printed decimal form here, so the numeral
is the embedding of the objective value. -/
structure Decimal where
  neg : Bool
  intPart : Nat
  frac : List Nat
deriving DecidableEq, Repr

/-- The exact rational value of a decimal numeral. -/
def Decimal.val (d : Decimal) : Rat :=
  (cond d.neg (-1) 1) *
    ((d.intPart : Rat) + d.frac.foldr (fun dig acc => ((dig : Nat) + acc : Rat) / 10) 0)

/-- The printed form of a decimal numeral, e.g. `-0.73`. -/
def Decimal.render (d : Decimal) : String :=
  (cond d.neg "-" "") ++ toString d.intPart ++ "." ++
    String.mk (d.frac.map (fun n => Char.ofNat (48 + n)))

/-- Negation of a printed float: `print('OUTPUT:', -acc)` flips the sign
(Python prints `-0.0` for the negation of `0.0`, so flipping the sign bit
is exact). -/
def Decimal.negD (d : Decimal) : Decimal :=
  { d with neg := !d.neg }

/-- The value of one digit character, if it is one. -/
def digitVal (c : Char) : Option Nat :=
  if '0' ≤ c ∧ c ≤ '9' then some (c.toNat - 48) else none

/-- Parse a nonempty all-digit character list into its digit list. -/
def digitsOf (cs : List Char) : Option (List Nat) :=
  if cs.isEmpty then none else cs.mapM digitVal

/-- The natural number a digit list denotes. -/
def natOfDigits (ds : List Nat) : Nat :=
  ds.foldl (fun a d => a * 10 + d) 0

/-- Split a character list at every occurrence of `sep`; the splitting
Python's `str.split` performs for a one-character separator. -/
def splitOnChar (sep : Char) (cs : List Char) : List (List Char) :=
  cs.foldr (fun c acc =>
    match acc with
    | cur :: rest => if c = sep then [] :: cur :: rest else (c :: cur) :: rest
    | [] => [[c]]) [[]]

/-- Drop the expected leading characters `pre`, or fail. -/
def stripLeading (pre cs : List Char) : Option (List Char) :=
  match pre, cs with
  | [], rest => some rest
  | p :: ps, c :: cs2 => if c = p then stripLeading ps cs2 else none
  | _ :: _, [] => none

/-- Parse the decimal rendering of a float: optional sign, digits, point,
digits (the form Python prints for a finite float). -/
def parseDecimal (s : String) : Option Decimal :=
  let (sign, body) :=
    match s.toList with
    | '-' :: rest => (true, rest)
    | other => (false, other)
  match splitOnChar '.' body with
  | [ip, fp] =>
      match digitsOf ip, digitsOf fp with
      | some ipds, some fpds => some ⟨sign, natOfDigits ipds, fpds⟩
      | _, _ => none
  | _ => none

/-- Modelled from the spec: `Evaluator._parse` on the base class is not
under `src/`; the spec describes the artifact as "a per-task text file
whose last relevant line matches a fixed OUTPUT: float pattern, parsed
to recover the objective".  A line is relevant when it has the form
`OUTPUT: <float>`; the last such line wins. -/
def parseOutputLine (line : String) : Option Decimal :=
  match stripLeading "OUTPUT: ".toList line.toList with
  | some rest => parseDecimal (String.mk rest)
  | none => none

/-- Modelled from the spec: the whole-artifact parse — scan the lines and
keep the last one matching the `OUTPUT: <float>` pattern. -/
def parseArtifact (content : String) : Option Decimal :=
  (splitOnChar (Char.ofNat 10) content.toList).foldl
    (fun acc line =>
      match parseOutputLine (String.mk line) with
      | some d => some d
      | none => acc) none

/-- `BalsamEvaluator._on_done`: reads the file `<job name>.out` in the
task's working directory (the directory is the map `fs` from file name to
content) and parses it. -/
def onDone (fs : String → Option String) (job : Job) : Option Decimal :=
  (fs (job.name ++ ".out")).bind parseArtifact

/-- The tail of `babi_rnn.run` after evaluation produced the test accuracy
`acc`: it prints `OUTPUT: <-acc>` and returns `-acc`.  The result is
(printed lines, returned objective). -/
def runReport (acc : Decimal) : List String × Decimal :=
  (["OUTPUT: " ++ (Decimal.negD acc).render], Decimal.negD acc)

/-! ## `deephyper.problem.LazyImport` (claim C10) -/

/-- The `LazyImport.attrs` class dictionary: the lazily loadable names and
the `submodule:attribute` string each resolves through. -/
def LazyImportAttrs : List (String × String) :=
  [("NaProblem", "_neuralarchitecture:NaProblem"),
   ("HpProblem", "_hyperparameter:HpProblem")]

/-- A Python object as observable by the shim: either the attribute
`attrName` of the imported submodule `fullModule` (what
`getattr(importlib.import_module(full_module_name), attr_name)` yields —
importing is deterministic, so the same pair denotes the identical
object), or the result of delegating to the wrapped module's ordinary
attribute lookup. -/
inductive PyObj
  | imported (fullModule attrName : String)
  | moduleAttrib (moduleName attrName : String)
deriving DecidableEq, Repr

/-- `LazyImport.__getattr__`: the class-level `cache` dictionary is the
state; the result is (returned object, cache afterwards, list of
submodules imported during the call).  The cache is tested first; then
`attrs`; otherwise the lookup is delegated to
`self.module.__getattribute__`.  The `attrs` branch splits the stored
string at `:`, imports `<module_name>.<submodule>`, stores the resolved
attribute in the cache and returns the cache entry.  (For the literal
`attrs` above the split always yields exactly two pieces; the fallthrough
arm is unreachable.) -/
def lazyGetattr (moduleName : String) (cache : List (String × PyObj))
    (nm : String) : PyObj × List (String × PyObj) × List String :=
  match List.lookup nm cache with
  | some o => (o, cache, [])
  | none =>
      match List.lookup nm LazyImportAttrs with
      | some attr =>
          match splitOnChar ':' attr.toList with
          | [sub, attrName] =>
              let full := moduleName ++ "." ++ String.mk sub
              let o := PyObj.imported full (String.mk attrName)
              (o, cache ++ [(nm, o)], [full])
          | _ => (PyObj.moduleAttrib moduleName nm, cache, [])
      | none => (PyObj.moduleAttrib moduleName nm, cache, [])

/-! ## Helper lemmas -/

/-- A binding found in a prefix of an association list is found in the
whole list. -/
theorem lookup_append_left {α β : Type} [BEq α] (k : α) (p q : List (α × β))
    (v : β) (h : List.lookup k p = some v) : List.lookup k (p ++ q) = some v := by
  induction p with
  | nil => simp [List.lookup] at h
  | cons kv rest ih =>
      rw [List.cons_append, List.lookup]
      rw [List.lookup] at h
      cases hb : (k == kv.1) with
      | true => simpa [hb] using h
      | false => simp only [hb] at h ⊢; exact ih h

/-- A name that fails to look up is not counted. -/
theorem countKey_of_lookup_none (reg : Registry) (n : String)
    (h : List.lookup n reg = none) : countKey reg n = 0 := by
  induction reg with
  | nil => simp [countKey]
  | cons kv rest ih =>
      rw [List.lookup] at h
      cases hb : (n == kv.1) with
      | true => simp [hb] at h
      | false =>
          simp only [hb] at h
          have hkn : (kv.1 == n) = false := by
            cases hbe : (kv.1 == n) with
            | true => simp_all [beq_iff_eq]
            | false => rfl
          have h2 := ih h
          simp only [countKey] at h2
          simp [countKey, List.filter, hkn, h2]

/-- A name that looks up successfully is counted at least once. -/
theorem countKey_of_lookup_isSome (reg : Registry) (n : String)
    (h : (List.lookup n reg).isSome) : 1 ≤ countKey reg n := by
  induction reg with
  | nil => simp [List.lookup] at h
  | cons kv rest ih =>
      rw [List.lookup] at h
      cases hb : (n == kv.1) with
      | true =>
          have hkn : (kv.1 == n) = true := by simp_all [beq_iff_eq]
          simp [countKey, List.filter, hkn]
      | false =>
          simp only [hb] at h
          have hkn : (kv.1 == n) = false := by
            cases hbe : (kv.1 == n) with
            | true => simp_all [beq_iff_eq]
            | false => rfl
          simp only [countKey, List.filter, hkn] at ih ⊢
          exact ih h

/-! ## Claim theorems -/

/-- C1: in `_eval_exec`, the derived resource request equals the defaults
`num_nodes=1, ranks_per_node=1, threads_per_rank=64,
node_packing_count=WORKERS_PER_NODE` whenever the configuration contains
none of those keys; and every key of the default resource map present in
the configuration is submitted with the configuration's value instead of
the default. -/
theorem C1_eval_exec_resources (wpn : Int) (x : Config) :
    ((∀ kv ∈ defaultResources wpn, List.lookup kv.1 x = none) →
      evalExecResources wpn x = defaultResources wpn) ∧
    (∀ kv ∈ defaultResources wpn, ∀ v, List.lookup kv.1 x = some v →
      List.lookup kv.1 (evalExecResources wpn x) = some v) := by
  constructor
  · intro h
    have h1 := h ("num_nodes", .int 1) (by simp [defaultResources])
    have h2 := h ("ranks_per_node", .int 1) (by simp [defaultResources])
    have h3 := h ("threads_per_rank", .int 64) (by simp [defaultResources])
    have h4 := h ("node_packing_count", .int wpn) (by simp [defaultResources])
    simp [evalExecResources, overrideResources, defaultResources, h1, h2, h3, h4]
  · intro kv hkv v hv
    simp only [defaultResources, List.mem_cons, List.not_mem_nil, or_false] at hkv
    rcases hkv with h | h | h | h <;>
      · subst h
        simp only [evalExecResources, overrideResources, defaultResources,
          List.map] at *
        rcases e1 : List.lookup "num_nodes" x <;>
          rcases e2 : List.lookup "ranks_per_node" x <;>
            rcases e3 : List.lookup "threads_per_rank" x <;>
              rcases e4 : List.lookup "node_packing_count" x <;>
                simp_all [List.lookup]

/-- Witness for C1 at a concrete configuration: no override keys gives the
defaults; an overriding `num_nodes=2` is submitted as 2. -/
theorem C1_eval_exec_resources_witness :
    evalExecResources 4 [("batch_size", PValue.int 8)] = defaultResources 4 ∧
    List.lookup "num_nodes" (evalExecResources 4 [("num_nodes", PValue.int 2)]) =
      some (PValue.int 2) :=
  ⟨(C1_eval_exec_resources 4 [("batch_size", PValue.int 8)]).1 (by decide),
   (C1_eval_exec_resources 4 [("num_nodes", PValue.int 2)]).2
     ("num_nodes", PValue.int 1) (by decide) (PValue.int 2) (by decide)⟩

/-- C2: `_on_fail` returns the fixed sentinel `Evaluator.FAIL_RETURN_VALUE`
for every failed task — the outcome is `Except.ok` (it never raises) and is
the same whatever job (and hence whatever configuration) produced the
failure. -/
theorem C2_on_fail_returns_sentinel (j j2 : Job) :
    (onFail j).2 = Except.ok FAIL_RETURN_VALUE ∧ (onFail j).2 = (onFail j2).2 :=
  ⟨rfl, rfl⟩

/-- C3: with both checkpoint files present, `run` resumes exactly when the
stored epoch count is strictly below the requested one; 5 stored vs 10
requested resumes, 10 vs 10 does not, and without the files there is no
resume.  The last conjunct shows the hashed file-name extension is built
from the sorted parameters with `epochs` excluded. -/
theorem C3_resume_iff_fewer_epochs (stored requested : Int) :
    ((runResumeCheck true stored requested).resume = true ↔ stored < requested) ∧
    (runResumeCheck true 5 10).resume = true ∧
    (runResumeCheck true 10 10).resume = false ∧
    (runResumeCheck false stored requested).resume = false ∧
    extension_from_parameters
        [("epochs", .int 10), ("rnn_type", .str "LSTM"), ("batch_size", .int 8)] =
      ".batch_size=8.rnn_type=LSTM" := by
  refine ⟨?_, by decide, by decide, rfl, by decide⟩
  simp [runResumeCheck]

/-- C4: `_init_app` looks the ApplicationDefinition up by name and creates
it only when absent; afterwards the name is registered exactly once (given
a well-formed registry), a second `_init_app` for the same entry-point
never creates again, and an evaluator construction — the step that must
precede any submission — leaves the entry-point registered. -/
theorem C4_registration_idempotent (reg : Registry)
    (n e moduleName funcName exe : String) (launcherNodes wpn : Int)
    (hwf : countKey reg n ≤ 1) :
    ((List.lookup n reg).isSome → initApp reg n e = (reg, false)) ∧
    (List.lookup n (initApp reg n e).1).isSome ∧
    (initApp (initApp reg n e).1 n e).2 = false ∧
    countKey (initApp reg n e).1 n = 1 ∧
    (List.lookup (moduleName ++ "." ++ funcName)
      (mkBalsamEvaluator reg moduleName funcName exe launcherNodes wpn).2).isSome := by
  have hmk : (List.lookup (moduleName ++ "." ++ funcName)
      (mkBalsamEvaluator reg moduleName funcName exe launcherNodes wpn).2).isSome := by
    rcases hlk2 : List.lookup (moduleName ++ "." ++ funcName) reg with _ | ex2
    · simp [mkBalsamEvaluator, initApp, hlk2, List.lookup]
    · simp [mkBalsamEvaluator, initApp, hlk2]
  rcases hlk : List.lookup n reg with _ | ex
  · refine ⟨?_, ?_, ?_, ?_, hmk⟩
    · intro hs
      simp at hs
    · simp [initApp, hlk, List.lookup]
    · simp [initApp, hlk, List.lookup]
    · have h0 := countKey_of_lookup_none reg n hlk
      simp only [countKey] at h0
      simp [initApp, hlk, countKey, List.filter, h0]
  · have hge : 1 ≤ countKey reg n :=
      countKey_of_lookup_isSome reg n (by rw [hlk]; rfl)
    refine ⟨?_, ?_, ?_, ?_, hmk⟩
    · intro _
      simp [initApp, hlk]
    · simp [initApp, hlk]
    · simp [initApp, hlk]
    · simp only [initApp, hlk]
      omega

/-- Witness for C4: registering `m.f` in the empty registry registers it
once, and registering again creates nothing. -/
theorem C4_registration_idempotent_witness :
    countKey (initApp [] "m.f" "py").1 "m.f" = 1 ∧
    (initApp (initApp [] "m.f" "py").1 "m.f" "py").2 = false ∧
    (List.lookup ("m" ++ "." ++ "f")
      (mkBalsamEvaluator [] "m" "f" "py" 1 4).2).isSome := by
  have h := C4_registration_idempotent [] "m.f" "py" "m" "f" "py" 1 4 (by decide)
  exact ⟨h.2.2.2.1, h.2.2.1, h.2.2.2.2⟩

/-- C6: a registry lookup failure other than `ObjectDoesNotExist`
propagates unchanged out of `_init_app` and makes the evaluator
constructor fail; a creation happens exactly in the `ObjectDoesNotExist`
case. -/
theorem C6_lookup_failure_fatal (msg : String) (reg : Registry)
    (n e moduleName funcName exe : String) (launcherNodes wpn : Int) :
    initAppExc (GetOutcome.dbFailure msg) reg n e = Except.error msg ∧
    mkBalsamEvaluatorExc (GetOutcome.dbFailure msg) reg moduleName funcName exe
        launcherNodes wpn = Except.error msg ∧
    (∀ g : GetOutcome,
      (∃ reg2, initAppExc g reg n e = Except.ok (reg2, true)) ↔
        g = GetOutcome.objectDoesNotExist) := by
  refine ⟨rfl, rfl, ?_⟩
  intro g
  cases g <;> simp [initAppExc]

/-- Counterexample to C7: in the whole event trace of constructing an
evaluator that registers a fresh entry-point, the registry lookup and
the create/save both occur, yet no transaction-guard entry (or exit)
event occurs anywhere in the trace — so neither access executes under
the external database's transaction guard; the code only stores the
guard for later use. -/
theorem C7_guarded_access_counterexample :
    Ev.regGet "model.run" ∈ (balsamInitEvents [] "model.run" "python").1 ∧
    Ev.regCreate "model.run" "python" ∈ (balsamInitEvents [] "model.run" "python").1 ∧
    Ev.txnBegin ∉ (balsamInitEvents [] "model.run" "python").1 ∧
    Ev.txnEnd ∉ (balsamInitEvents [] "model.run" "python").1 := by decide

/-- C7 as amended: the registry accesses in `_init_app` are not wrapped in
any transaction guard by this code — no guard event appears in any
constructor trace, and `transaction.atomic` is only stored (the trace's
final event) after `_init_app` has finished; consequently an unguarded
interleaving of two constructions for the same entry-point produces a
duplicate registration. -/
theorem C7_registration_unguarded (reg : Registry) (n e : String) :
    Ev.txnBegin ∉ (balsamInitEvents reg n e).1 ∧
    Ev.txnEnd ∉ (balsamInitEvents reg n e).1 ∧
    (balsamInitEvents reg n e).1.getLast? = some Ev.storeTxnContext ∧
    countKey raceFinalRegistry "model.run" = 2 := by
  refine ⟨?_, ?_, ?_, by decide⟩ <;>
    · unfold balsamInitEvents initAppEvents
      rcases List.lookup n reg with _ | ex <;> simp [List.getLast?]

/-- C5: `run` ends by printing exactly one line `OUTPUT: <float>` carrying
the negated test accuracy and returns that negated accuracy; for accuracy
`0.73` the printed line is `OUTPUT: -0.73` with value `-73/100`, and
`_on_done` reading the file `task0.out` of job `task0` through the
spec's artifact parse recovers `-0.73` from a well-formed artifact. -/
theorem C5_output_contract (acc : Decimal) :
    runReport acc = (["OUTPUT: " ++ (Decimal.negD acc).render], Decimal.negD acc) ∧
    (runReport ⟨false, 0, [7, 3]⟩).1 = ["OUTPUT: -0.73"] ∧
    (runReport ⟨false, 0, [7, 3]⟩).2.val = -(73 / 100 : Rat) ∧
    onDone (fun f =>
        if f = "task0.out" then
          some ("module import time: 0.1 seconds\n" ++
            "Test loss / test accuracy = 0.5100 / 0.7300\nOUTPUT: -0.73\n")
        else none) ⟨"task0", "id", []⟩ = some ⟨true, 0, [7, 3]⟩ := by
  refine ⟨rfl, by decide, ?_, by decide⟩
  norm_num [runReport, Decimal.negD, Decimal.val]

/-- Counterexample to C8: `run` does mutate the configuration mapping it
is handed — called with the empty mapping, the default-filling loop adds
the key `rnn_type` (among others), so the mapping's entries are not
unchanged after the call. -/
theorem C8_immutable_config_counterexample :
    List.lookup "rnn_type" ([] : Config) = none ∧
    List.lookup "rnn_type" (runParamDict []) = some (PValue.str "LSTM") ∧
    runParamDict [] ≠ [] := by decide

/-- A binding keeps its value through the default-filling loop of `run`:
the loop only appends keys that are absent. -/
theorem fillDefaults_preserves (defaults : Config) :
    ∀ params k v, List.lookup k params = some v →
      List.lookup k (fillDefaults defaults params) = some v := by
  induction defaults with
  | nil => intro params k v h; simpa [fillDefaults] using h
  | cons kv rest ih =>
      intro params k v h
      rcases hp : List.lookup kv.1 params with _ | w
      · have h2 : List.lookup k (params ++ [kv]) = some v :=
          lookup_append_left k params [kv] v h
        have h3 := ih (params ++ [kv]) k v h2
        simp only [fillDefaults, List.foldl_cons, hp] at h3 ⊢
        exact h3
      · have h3 := ih params k v h
        simp only [fillDefaults, List.foldl_cons, hp] at h3 ⊢
        exact h3

/-- The default-filling loop of `run` is the identity on a configuration
that already binds every default key. -/
theorem fillDefaults_of_all_present (defaults : Config) :
    ∀ params, (∀ kv ∈ defaults, (List.lookup kv.1 params).isSome) →
      fillDefaults defaults params = params := by
  induction defaults with
  | nil => intro params _; rfl
  | cons kv rest ih =>
      intro params h
      have hkv := h kv (List.mem_cons_self kv rest)
      rcases hp : List.lookup kv.1 params with _ | w
      · rw [hp] at hkv; simp at hkv
      · have h2 : ∀ kv2 ∈ rest, (List.lookup kv2.1 params).isSome :=
          fun kv2 hm => h kv2 (List.mem_cons_of_mem kv hm)
        have h3 := ih params h2
        simp only [fillDefaults, List.foldl_cons, hp] at h3 ⊢
        exact h3

/-- C8 as amended: `_eval_exec` leaves the submitted configuration
untouched; `run` never removes or rebinds an existing entry (every present
binding survives), and it leaves the mapping entirely unchanged exactly
when the mapping already contains every default key — but it does add
defaults for absent keys. -/
theorem C8_frame_on_submit (wpn : Int) (counter : Nat) (x params : Config)
    (k : String) (v : PValue) :
    (evalExecState wpn counter x).2 = x ∧
    (List.lookup k params = some v →
      List.lookup k (runParamDict params) = some v) ∧
    ((∀ kv ∈ run_defaults, (List.lookup kv.1 params).isSome) →
      runParamDict params = params) :=
  ⟨rfl,
   fun h => fillDefaults_preserves run_defaults params k v h,
   fun h => fillDefaults_of_all_present run_defaults params h⟩

/-- Witness for the amended C8 at concrete inputs: submission leaves the
configuration as it was; a present `epochs` binding survives the filling
loop; a configuration holding all default keys passes through unchanged. -/
theorem C8_frame_on_submit_witness :
    (evalExecState 4 0 [("num_nodes", PValue.int 2)]).2 =
      [("num_nodes", PValue.int 2)] ∧
    List.lookup "epochs" (runParamDict run_defaults) = some (PValue.int 10) ∧
    runParamDict run_defaults = run_defaults := by
  have h := C8_frame_on_submit 4 0 [("num_nodes", PValue.int 2)] run_defaults
    "epochs" (PValue.int 10)
  exact ⟨h.1, h.2.1 (by decide), h.2.2 (by decide)⟩

/-- C9: when `stage_in` raises, `run` prints the manual-download
remediation hint and re-raises the original error unchanged — it neither
continues nor substitutes a value; when staging succeeds nothing is
printed and the paths pass through. -/
theorem C9_staging_error_fatal (e : String) (paths : List (String × String)) :
    runStaging (Except.error e) = ([remediationHint], Except.error e) ∧
    runStaging (Except.ok paths) = ([], Except.ok paths) :=
  ⟨rfl, rfl⟩

/-- A key absent from a prefix of an association list is looked up in the
suffix. -/
theorem lookup_append_of_none {α β : Type} [BEq α] (k : α) (p q : List (α × β))
    (h : List.lookup k p = none) : List.lookup k (p ++ q) = List.lookup k q := by
  induction p with
  | nil => simp
  | cons kv rest ih =>
      rw [List.lookup] at h
      rw [List.cons_append, List.lookup]
      cases hb : (k == kv.1) with
      | true => simp [hb] at h
      | false => simp only [hb] at h ⊢; exact ih h

/-- The only names the `attrs` table resolves, and what they resolve to. -/
theorem lazyAttrs_lookup_cases (nm a : String)
    (h : List.lookup nm LazyImportAttrs = some a) :
    (nm = "NaProblem" ∧ a = "_neuralarchitecture:NaProblem") ∨
    (nm = "HpProblem" ∧ a = "_hyperparameter:HpProblem") := by
  by_cases e1 : nm = "NaProblem"
  · subst e1
    left
    refine ⟨rfl, ?_⟩
    have hv : List.lookup "NaProblem" LazyImportAttrs =
        some "_neuralarchitecture:NaProblem" := by decide
    rw [hv] at h
    exact (Option.some.inj h).symm
  · by_cases e2 : nm = "HpProblem"
    · subst e2
      right
      refine ⟨rfl, ?_⟩
      have hv : List.lookup "HpProblem" LazyImportAttrs =
          some "_hyperparameter:HpProblem" := by decide
      rw [hv] at h
      exact (Option.some.inj h).symm
    · exfalso
      have b1 : (nm == "NaProblem") = false := by simp [e1]
      have b2 : (nm == "HpProblem") = false := by simp [e2]
      have hn : List.lookup nm LazyImportAttrs = none := by
        simp [LazyImportAttrs, List.lookup, b1, b2]
      rw [hn] at h
      exact Option.noConfusion h

/-- First access of the lazily loadable name `NaProblem`: the submodule is
imported and the resolved attribute is stored in the cache. -/
theorem lazyGetattr_NaProblem_first (m : String) (cache : List (String × PyObj))
    (h : List.lookup "NaProblem" cache = none) :
    lazyGetattr m cache "NaProblem" =
      (PyObj.imported (m ++ "." ++ "_neuralarchitecture") "NaProblem",
       cache ++ [("NaProblem",
         PyObj.imported (m ++ "." ++ "_neuralarchitecture") "NaProblem")],
       [m ++ "." ++ "_neuralarchitecture"]) := by
  have hattr : List.lookup "NaProblem" LazyImportAttrs =
      some "_neuralarchitecture:NaProblem" := by decide
  have hsplit : splitOnChar ':' ("_neuralarchitecture:NaProblem").toList =
      ["_neuralarchitecture".toList, "NaProblem".toList] := by decide
  simp only [lazyGetattr, h, hattr, hsplit]
  rfl

/-- First access of the lazily loadable name `HpProblem`: the submodule is
imported and the resolved attribute is stored in the cache. -/
theorem lazyGetattr_HpProblem_first (m : String) (cache : List (String × PyObj))
    (h : List.lookup "HpProblem" cache = none) :
    lazyGetattr m cache "HpProblem" =
      (PyObj.imported (m ++ "." ++ "_hyperparameter") "HpProblem",
       cache ++ [("HpProblem",
         PyObj.imported (m ++ "." ++ "_hyperparameter") "HpProblem")],
       [m ++ "." ++ "_hyperparameter"]) := by
  have hattr : List.lookup "HpProblem" LazyImportAttrs =
      some "_hyperparameter:HpProblem" := by decide
  have hsplit : splitOnChar ':' ("_hyperparameter:HpProblem").toList =
      ["_hyperparameter".toList, "HpProblem".toList] := by decide
  simp only [lazyGetattr, h, hattr, hsplit]
  rfl

/-- A name outside both the cache and the `attrs` table is delegated to the
wrapped module's ordinary attribute lookup, with no state change. -/
theorem lazyGetattr_delegates (m nm : String) (cache : List (String × PyObj))
    (h1 : List.lookup nm cache = none)
    (h2 : List.lookup nm LazyImportAttrs = none) :
    lazyGetattr m cache nm = (PyObj.moduleAttrib m nm, cache, []) := by
  simp [lazyGetattr, h1, h2]

/-- C10: the shim's attribute lookup is caching and idempotent.  A cached
name returns the identical cached object with no import, from any instance
(any wrapped module name); the first access of each name in `attrs`
imports its submodule and stores the resolved attribute; a name in neither
`attrs` nor the cache is delegated to the wrapped module; and repeating
any access returns the same object and state with no further import. -/
theorem C10_lazy_import_caching (m m2 nm : String)
    (cache : List (String × PyObj)) (o : PyObj) :
    (List.lookup nm cache = some o →
      lazyGetattr m cache nm = (o, cache, []) ∧
      lazyGetattr m2 cache nm = (o, cache, [])) ∧
    (List.lookup "NaProblem" cache = none →
      lazyGetattr m cache "NaProblem" =
        (PyObj.imported (m ++ "." ++ "_neuralarchitecture") "NaProblem",
         cache ++ [("NaProblem",
           PyObj.imported (m ++ "." ++ "_neuralarchitecture") "NaProblem")],
         [m ++ "." ++ "_neuralarchitecture"])) ∧
    (List.lookup "HpProblem" cache = none →
      lazyGetattr m cache "HpProblem" =
        (PyObj.imported (m ++ "." ++ "_hyperparameter") "HpProblem",
         cache ++ [("HpProblem",
           PyObj.imported (m ++ "." ++ "_hyperparameter") "HpProblem")],
         [m ++ "." ++ "_hyperparameter"])) ∧
    (List.lookup nm cache = none → List.lookup nm LazyImportAttrs = none →
      lazyGetattr m cache nm = (PyObj.moduleAttrib m nm, cache, [])) ∧
    lazyGetattr m (lazyGetattr m cache nm).2.1 nm =
      ((lazyGetattr m cache nm).1, (lazyGetattr m cache nm).2.1, []) := by
  refine ⟨?_, fun h => lazyGetattr_NaProblem_first m cache h,
    fun h => lazyGetattr_HpProblem_first m cache h,
    fun h1 h2 => lazyGetattr_delegates m nm cache h1 h2, ?_⟩
  · intro h
    constructor <;> simp [lazyGetattr, h]
  · rcases hc : List.lookup nm cache with _ | o0
    · rcases ha : List.lookup nm LazyImportAttrs with _ | attr
      · rw [lazyGetattr_delegates m nm cache hc ha]
        exact lazyGetattr_delegates m nm cache hc ha
      · rcases lazyAttrs_lookup_cases nm attr ha with ⟨e1, _⟩ | ⟨e1, _⟩ <;> subst e1
        · rw [lazyGetattr_NaProblem_first m cache hc]
          have hl : List.lookup "NaProblem"
              (cache ++ [("NaProblem",
                PyObj.imported (m ++ "." ++ "_neuralarchitecture") "NaProblem")]) =
              some (PyObj.imported (m ++ "." ++ "_neuralarchitecture") "NaProblem") := by
            rw [lookup_append_of_none _ _ _ hc]
            simp [List.lookup]
          simp [lazyGetattr, hl]
        · rw [lazyGetattr_HpProblem_first m cache hc]
          have hl : List.lookup "HpProblem"
              (cache ++ [("HpProblem",
                PyObj.imported (m ++ "." ++ "_hyperparameter") "HpProblem")]) =
              some (PyObj.imported (m ++ "." ++ "_hyperparameter") "HpProblem") := by
            rw [lookup_append_of_none _ _ _ hc]
            simp [List.lookup]
          simp [lazyGetattr, hl]
    · simp [lazyGetattr, hc]

/-- Witness for C10: a first access of `NaProblem` on the empty cache
imports and caches; the following access returns the identical object with
no import; an unknown name is delegated untouched. -/
theorem C10_lazy_import_caching_witness :
    lazyGetattr "deephyper.problem" [] "NaProblem" =
      (PyObj.imported ("deephyper.problem" ++ "." ++ "_neuralarchitecture")
         "NaProblem",
       [] ++ [("NaProblem",
         PyObj.imported ("deephyper.problem" ++ "." ++ "_neuralarchitecture")
           "NaProblem")],
       ["deephyper.problem" ++ "." ++ "_neuralarchitecture"]) ∧
    lazyGetattr "deephyper.problem"
        [("NaProblem",
          PyObj.imported "deephyper.problem._neuralarchitecture" "NaProblem")]
        "NaProblem" =
      (PyObj.imported "deephyper.problem._neuralarchitecture" "NaProblem",
       [("NaProblem",
         PyObj.imported "deephyper.problem._neuralarchitecture" "NaProblem")],
       []) ∧
    lazyGetattr "deephyper.problem" [] "get_logger" =
      (PyObj.moduleAttrib "deephyper.problem" "get_logger", [], []) := by
  refine ⟨(C10_lazy_import_caching "deephyper.problem" "deephyper.problem"
      "NaProblem" [] (PyObj.moduleAttrib "" "")).2.1 (by decide), ?_, ?_⟩
  · exact ((C10_lazy_import_caching "deephyper.problem" "deephyper.problem"
      "NaProblem"
      [("NaProblem",
        PyObj.imported "deephyper.problem._neuralarchitecture" "NaProblem")]
      (PyObj.imported "deephyper.problem._neuralarchitecture" "NaProblem")).1
      (by decide)).1
  · exact (C10_lazy_import_caching "deephyper.problem" "deephyper.problem"
      "get_logger" [] (PyObj.moduleAttrib "" "")).2.2.2.1 (by decide) (by decide)
